import Mathlib

/-!
Shallow embedding of the HabitTracker core domain logic
(`backend/api/models.py`): the `Habit` and `CheckIn` models, their
`clean` validators, the `CheckIn.save` trigger logic, the streak
recomputation `CheckIn.update_streak`, the `success_rate` statistic and
`get_streak_status`.

Modelling conventions:
* Django's database state for one habit is an explicit list of persisted
  `CheckIn` rows; `self.pk` is `Option Nat` (`none` for an unsaved row);
  `CheckIn.objects.get(pk=...)` is `findByPk`.
* `datetime` values are whole seconds since an epoch (`Timestamp`);
  `timedelta(hours=48)` is `hours48 = 48 * 3600` seconds and
  `datetime.date()` is flooring division by `86400`.  Calendar dates are
  day numbers (`Int`); Python's `(d1 - d2).days == 1` is `d1 - d2 = 1`.
* `ValidationError(msg)` / `DoesNotExist` are `Except.error msg`; the
  exact message strings of the source are kept.
* Python `float` arithmetic in `success_rate` is modelled by `ℚ`.
* Model fields that no property below depends on (habit name, owner,
  description, color, is_active, rating, observations, updated_at) are
  omitted from the record types.
-/

namespace HabitTracker

/-- `Habit.FREQUENCY_CHOICES`: daily / weekly / monthly. -/
inductive Frequency
  | daily
  | weekly
  | monthly
deriving DecidableEq, Repr

/-- A point in time, in whole seconds since an epoch (models `datetime`). -/
structure Timestamp where
  sec : Int
deriving DecidableEq, Repr

/-- `datetime.date()`: the calendar day (as a day number) containing a
timestamp; days are 86400 seconds long. -/
def Timestamp.date (t : Timestamp) : Int := Int.fdiv t.sec 86400

/-- `timedelta(hours=48)` in seconds. -/
def hours48 : Int := 48 * 3600

/-- The `Habit` model fields the core logic reads and writes. -/
structure Habit where
  frequency : Frequency
  target_count : Nat
  current_streak : Nat
  best_streak : Nat
deriving DecidableEq, Repr

/-- One persisted (or about-to-be-persisted) `CheckIn` row of a single
habit.  `pk = none` models an unsaved instance (Django's `self.pk is
None`). -/
structure CheckIn where
  pk : Option Nat
  date : Int
  done : Bool
  created_at : Timestamp
deriving DecidableEq, Repr

/-- Message of the `ValidationError` raised by `Habit.clean` for a daily
habit whose `target_count` exceeds 7. -/
def invalidDailyTargetMsg : String :=
  "Para hábitos diários, o máximo é de 7 vezes por semana."

/-- Message raised by `Habit.clean` for a weekly habit whose
`target_count` exceeds 20. -/
def invalidWeeklyTargetMsg : String :=
  "Para hábitos semanais, o máximo é de 20 vezes por mês."

/-- Message raised by `Habit.clean` for a monthly habit whose
`target_count` exceeds 31. -/
def invalidMonthlyTargetMsg : String :=
  "Para hábitos mensais, o máximo é de 31 vezes por mês."

/-- Message raised by `CheckIn.clean` for a future-dated check-in. -/
def futureCheckInMsg : String :=
  "Não é possível realizar um check-in em uma data futura."

/-- Message raised by `CheckIn.clean` when the 48-hour edit window has
expired. -/
def editWindowExpiredMsg : String :=
  "Não é possível editar um check-in antigo."

/-- `CheckIn.objects.get` raising `DoesNotExist`. -/
def checkInDoesNotExistMsg : String :=
  "CheckIn matching query does not exist."

/-- `Habit.clean`: cadence-dependent upper bound on `target_count`. -/
def Habit.clean (h : Habit) : Except String Unit :=
  if h.frequency = Frequency.daily ∧ h.target_count > 7 then
    Except.error invalidDailyTargetMsg
  else if h.frequency = Frequency.weekly ∧ h.target_count > 20 then
    Except.error invalidWeeklyTargetMsg
  else if h.frequency = Frequency.monthly ∧ h.target_count > 31 then
    Except.error invalidMonthlyTargetMsg
  else Except.ok ()

/-- `Habit.success_rate`: `0.0` with no check-ins, otherwise the done
count over the total count, times 100.  `checkins` is the habit's full
persisted check-in history (`self.checkins`). -/
def success_rate (checkins : List CheckIn) : ℚ :=
  if checkins.length = 0 then 0
  else (((checkins.filter fun c => c.done).length : ℚ) / (checkins.length : ℚ)) * 100

/-- Return value of `Habit.get_streak_status` when `current_streak = 0`. -/
def startStreakMsg : String := "Comece seu streak!"

/-- Return value of `Habit.get_streak_status` when the current streak
equals `target_count`. -/
def maxStreakMsg : String := "Você está no seu streak máximo!"

/-- Return value of `Habit.get_streak_status` in the in-progress case
(the f-string with the current streak interpolated). -/
def streakOfDaysMsg (n : Nat) : String :=
  "Você está em um streak de " ++ toString n ++ " dias!"

/-- `Habit.get_streak_status`. -/
def Habit.get_streak_status (h : Habit) : String :=
  if h.current_streak = 0 then startStreakMsg
  else if h.current_streak = h.target_count then maxStreakMsg
  else streakOfDaysMsg h.current_streak

/-- `CheckIn.objects.get(pk=k)` over the habit's rows. -/
def findByPk (db : List CheckIn) (k : Nat) : Option CheckIn :=
  db.find? fun c => decide (c.pk = some k)

/-- `CheckIn.clean`: reject future-dated check-ins, and for an existing
row (`self.pk` set) reject edits once more than 48 hours have elapsed
since the persisted row's `created_at`. -/
def CheckIn.clean (db : List CheckIn) (c : CheckIn) (now : Timestamp) :
    Except String Unit :=
  if c.date > now.date then Except.error futureCheckInMsg
  else
    match c.pk with
    | none => Except.ok ()
    | some k =>
      match findByPk db k with
      | none => Except.error checkInDoesNotExistMsg
      | some original =>
        if now.sec - original.created_at.sec > hours48 then
          Except.error editWindowExpiredMsg
        else Except.ok ()

/-- `habit.checkins.filter(done=True).order_by("-date")`, as the list of
dates: the done rows' dates sorted most recent first. -/
def doneDatesDesc (checkins : List CheckIn) : List Int :=
  List.insertionSort (· ≥ ·) ((checkins.filter fun c => c.done).map fun c => c.date)

/-- The pairwise walk of `CheckIn.update_streak`: starting from 1 for the
most recent date, keep counting while each adjacent pair of the
descending list differs by exactly one day, and stop at the first other
gap.  Returns 0 on the empty list (that case is handled separately in
`update_streak`, with the same result). -/
def streak_walk : List Int → Nat
  | [] => 0
  | [_] => 1
  | d1 :: d2 :: rest => if d1 - d2 = 1 then streak_walk (d2 :: rest) + 1 else 1

/-- `CheckIn.update_streak`: recompute `habit.current_streak` from the
done rows of `db` (the habit's persisted check-ins at call time), ratchet
`best_streak`, and save the habit. -/
def CheckIn.update_streak (habit : Habit) (db : List CheckIn) : Habit :=
  let dates := doneDatesDesc db
  let habit1 :=
    if dates.isEmpty then { habit with current_streak := 0 }
    else { habit with current_streak := streak_walk dates }
  if habit1.best_streak < habit1.current_streak then
    { habit1 with best_streak := habit1.current_streak }
  else habit1

/-- The primary key Django's autoincrement assigns to a newly inserted
row. -/
def freshPk (db : List CheckIn) : Nat :=
  (db.foldr (fun c m => max (c.pk.getD 0) m) 0) + 1

/-- `CheckIn.save`: run `full_clean`, then — only when this is an edit of
an existing row (`self.pk` set), the new `done` is true and the persisted
`done` was false — run `update_streak` (note: before the row itself is
persisted), and finally persist the row (`super().save()`).  Returns the
resulting habit and the habit's rows after the save. -/
def CheckIn.save (habit : Habit) (db : List CheckIn) (c : CheckIn)
    (now : Timestamp) : Except String (Habit × List CheckIn) :=
  match CheckIn.clean db c now with
  | Except.error e => Except.error e
  | Except.ok _ =>
    match c.pk with
    | none => Except.ok (habit, db ++ [{ c with pk := some (freshPk db) }])
    | some k =>
      match findByPk db k with
      | none => Except.error checkInDoesNotExistMsg
      | some original =>
        let habit1 :=
          if c.done && !original.done then CheckIn.update_streak habit db
          else habit
        Except.ok (habit1, db.map fun r => if r.pk = some k then c else r)

/-- Adjacency relation of the streak walk: `a` is exactly one day after
`b`. -/
abbrev consecDay : Int → Int → Prop := fun a b => a - b = 1

theorem streak_walk_pos (l : List Int) (hl : l ≠ []) : 1 ≤ streak_walk l := by
  match l with
  | [] => exact absurd rfl hl
  | [d] => simp [streak_walk]
  | d1 :: d2 :: rest =>
    simp only [streak_walk]
    split <;> omega

theorem streak_walk_le_length : (l : List Int) → streak_walk l ≤ l.length
  | [] => by simp [streak_walk]
  | [d] => by simp [streak_walk]
  | d1 :: d2 :: rest => by
    have ih := streak_walk_le_length (d2 :: rest)
    simp only [streak_walk, List.length_cons] at ih ⊢
    split <;> omega

theorem chain'_take_streak_walk :
    (l : List Int) → List.Chain' consecDay (l.take (streak_walk l))
  | [] => by simp [streak_walk]
  | [d] => by simp [streak_walk]
  | d1 :: d2 :: rest => by
    by_cases hgap : d1 - d2 = 1
    · have ih := chain'_take_streak_walk (d2 :: rest)
      have hpos : 1 ≤ streak_walk (d2 :: rest) :=
        streak_walk_pos (d2 :: rest) (by simp)
      obtain ⟨n, hn⟩ : ∃ n, streak_walk (d2 :: rest) = n + 1 :=
        ⟨streak_walk (d2 :: rest) - 1, by omega⟩
      rw [hn, List.take_succ_cons] at ih
      simp only [streak_walk, if_pos hgap, hn, List.take_succ_cons]
      exact List.chain'_cons.mpr ⟨hgap, ih⟩
    · simp [streak_walk, if_neg hgap]

theorem le_streak_walk_of_chain' :
    (l : List Int) → (m : Nat) → m ≤ l.length →
      List.Chain' consecDay (l.take m) → m ≤ streak_walk l
  | [], m, hm, _ => by simpa [streak_walk] using hm
  | [d], m, hm, _ => by
    simp only [List.length_singleton] at hm
    simpa [streak_walk] using hm
  | d1 :: d2 :: rest, m, hm, hc => by
    match m with
    | 0 => exact Nat.zero_le _
    | 1 => exact streak_walk_pos (d1 :: d2 :: rest) (by simp)
    | m' + 2 =>
      rw [List.take_succ_cons, List.take_succ_cons] at hc
      have hcc := List.chain'_cons.mp hc
      have hgap : d1 - d2 = 1 := hcc.1
      have hrec : m' + 1 ≤ streak_walk (d2 :: rest) :=
        le_streak_walk_of_chain' (d2 :: rest) (m' + 1)
          (by simp only [List.length_cons] at hm ⊢; omega)
          (by rw [List.take_succ_cons]; exact hcc.2)
      simp only [streak_walk, if_pos hgap]
      omega

theorem update_streak_current_streak (habit : Habit) (db : List CheckIn) :
    (CheckIn.update_streak habit db).current_streak
      = streak_walk (doneDatesDesc db) := by
  simp only [CheckIn.update_streak]
  by_cases he : (doneDatesDesc db).isEmpty
  · rw [List.isEmpty_iff] at he
    simp [he, streak_walk]
  · simp only [he, if_neg, Bool.false_eq_true, not_false_eq_true, if_false]
    split <;> simp

theorem doneDatesDesc_length (cks : List CheckIn) :
    (doneDatesDesc cks).length = (cks.filter fun c => c.done).length := by
  unfold doneDatesDesc
  rw [(List.perm_insertionSort _ _).length_eq, List.length_map]

/-- C1: on every triggering recomputation, `update_streak` sets
`current_streak` to the length of the maximal run of consecutive calendar
days (adjacent gaps of exactly one day in the descending-sorted done
dates) ending at the most recent done date, and to 0 when the habit has
no done check-ins; on done dates Jan 1, Jan 2, Jan 3 it yields 3. -/
theorem update_streak_sets_maximal_consecutive_run
    (habit : Habit) (cks : List CheckIn) :
    ((doneDatesDesc cks).Sorted (· ≥ ·)
      ∧ (doneDatesDesc cks).Perm ((cks.filter fun c => c.done).map fun c => c.date))
    ∧ ((cks.filter fun c => c.done) = [] →
        (CheckIn.update_streak habit cks).current_streak = 0)
    ∧ ((cks.filter fun c => c.done) ≠ [] →
        1 ≤ (CheckIn.update_streak habit cks).current_streak
        ∧ (CheckIn.update_streak habit cks).current_streak ≤ (doneDatesDesc cks).length
        ∧ List.Chain' consecDay
            ((doneDatesDesc cks).take (CheckIn.update_streak habit cks).current_streak)
        ∧ ∀ m, m ≤ (doneDatesDesc cks).length →
            List.Chain' consecDay ((doneDatesDesc cks).take m) →
            m ≤ (CheckIn.update_streak habit cks).current_streak)
    ∧ (CheckIn.update_streak habit
        [⟨some 1, 1, true, ⟨0⟩⟩, ⟨some 2, 2, true, ⟨0⟩⟩,
         ⟨some 3, 3, true, ⟨0⟩⟩]).current_streak = 3 := by
  refine ⟨⟨List.sorted_insertionSort _ _, List.perm_insertionSort _ _⟩, ?_, ?_, ?_⟩
  · intro hempty
    rw [update_streak_current_streak]
    unfold doneDatesDesc
    rw [hempty]
    rfl
  · intro hne
    have hlen : (doneDatesDesc cks).length ≠ 0 := by
      rw [doneDatesDesc_length]
      simpa [List.length_eq_zero] using hne
    have hdne : doneDatesDesc cks ≠ [] := by
      intro h0
      exact hlen (by rw [h0]; rfl)
    rw [update_streak_current_streak]
    exact ⟨streak_walk_pos _ hdne, streak_walk_le_length _,
      chain'_take_streak_walk _,
      fun m hm hc => le_streak_walk_of_chain' _ m hm hc⟩
  · rw [update_streak_current_streak]
    rfl

/-- Witness for C1 at concrete inputs: the empty-history case gives
streak 0, and the Jan 1/2/3 history gives streak 3. -/
theorem update_streak_sets_maximal_consecutive_run_witness :
    (([] : List CheckIn).filter fun c => c.done) = []
    ∧ (CheckIn.update_streak ⟨Frequency.daily, 1, 5, 5⟩ []).current_streak = 0
    ∧ (CheckIn.update_streak ⟨Frequency.daily, 1, 5, 5⟩
        [⟨some 1, 1, true, ⟨0⟩⟩, ⟨some 2, 2, true, ⟨0⟩⟩,
         ⟨some 3, 3, true, ⟨0⟩⟩]).current_streak = 3 :=
  ⟨rfl,
   (update_streak_sets_maximal_consecutive_run ⟨Frequency.daily, 1, 5, 5⟩ []).2.1 rfl,
   (update_streak_sets_maximal_consecutive_run ⟨Frequency.daily, 1, 5, 5⟩ []).2.2.2⟩

/-- C4: after every recomputation, `best_streak` is the maximum of its
previous value and the new `current_streak`; hence `best_streak ≥
current_streak` holds afterwards, and `best_streak` never decreases. -/
theorem best_streak_ratchet (habit : Habit) (db : List CheckIn) :
    (CheckIn.update_streak habit db).best_streak
      = max habit.best_streak (CheckIn.update_streak habit db).current_streak
    ∧ (CheckIn.update_streak habit db).current_streak
        ≤ (CheckIn.update_streak habit db).best_streak
    ∧ habit.best_streak ≤ (CheckIn.update_streak habit db).best_streak := by
  simp only [CheckIn.update_streak]
  split
  all_goals split <;> simp_all <;> omega

/-- C7: `success_rate` is 0 on an empty history, otherwise the done
fraction times 100; it always lies in `[0, 100]` and is a pure function
of the history (repeated calls agree). -/
theorem success_rate_spec (cks : List CheckIn) :
    (cks = [] → success_rate cks = 0)
    ∧ (cks ≠ [] →
        success_rate cks
          = (((cks.filter fun c => c.done).length : ℚ) / (cks.length : ℚ)) * 100)
    ∧ 0 ≤ success_rate cks ∧ success_rate cks ≤ 100
    ∧ success_rate cks = success_rate cks := by
  by_cases h0 : cks.length = 0
  · have hnil : cks = [] := List.length_eq_zero.mp h0
    subst hnil
    refine ⟨fun _ => rfl, fun h => absurd rfl h, ?_, ?_, rfl⟩ <;> simp [success_rate]
  · have hne : cks ≠ [] := fun h => h0 (by rw [h]; rfl)
    have hrate : success_rate cks
        = (((cks.filter fun c => c.done).length : ℚ) / (cks.length : ℚ)) * 100 := by
      simp [success_rate, h0]
    have hbpos : (0 : ℚ) < (cks.length : ℚ) := by
      exact_mod_cast Nat.pos_of_ne_zero h0
    have hfle : ((cks.filter fun c => c.done).length : ℚ) ≤ (cks.length : ℚ) := by
      exact_mod_cast List.length_filter_le _ cks
    have hdiv0 : (0 : ℚ) ≤ ((cks.filter fun c => c.done).length : ℚ) / (cks.length : ℚ) :=
      div_nonneg (Nat.cast_nonneg _) (le_of_lt hbpos)
    have hdiv1 : ((cks.filter fun c => c.done).length : ℚ) / (cks.length : ℚ) ≤ 1 :=
      (div_le_one hbpos).mpr hfle
    refine ⟨fun h => absurd h hne, fun _ => hrate, ?_, ?_, rfl⟩
    · rw [hrate]
      positivity
    · rw [hrate]
      calc (((cks.filter fun c => c.done).length : ℚ) / (cks.length : ℚ)) * 100
          ≤ 1 * 100 := by
            exact mul_le_mul_of_nonneg_right hdiv1 (by norm_num)
        _ = 100 := by norm_num

/-- Witness for C7: the empty history has rate 0, and a one-element done
history has a nonnegative rate. -/
theorem success_rate_spec_witness :
    success_rate ([] : List CheckIn) = 0
    ∧ 0 ≤ success_rate ([⟨some 1, 0, true, ⟨0⟩⟩] : List CheckIn) :=
  ⟨(success_rate_spec []).1 rfl, (success_rate_spec _).2.2.1⟩

theorem streakOfDaysMsg_length (n : Nat) :
    (streakOfDaysMsg n).length = 32 + (toString n).length := by
  have h1 : ("Você está em um streak de " : String).length = 26 := by decide
  have h2 : (" dias!" : String).length = 6 := by decide
  simp only [streakOfDaysMsg, String.length_append, h1, h2]
  omega

theorem streakOfDaysMsg_ne_start (n : Nat) : streakOfDaysMsg n ≠ startStreakMsg := by
  intro h
  have hl := congrArg String.length h
  rw [streakOfDaysMsg_length] at hl
  have h3 : (startStreakMsg : String).length = 18 := by decide
  omega

theorem streakOfDaysMsg_ne_max (n : Nat) : streakOfDaysMsg n ≠ maxStreakMsg := by
  intro h
  have hl := congrArg String.length h
  rw [streakOfDaysMsg_length] at hl
  have h3 : (maxStreakMsg : String).length = 31 := by decide
  omega

/-- C8: for `target_count > 0`, `get_streak_status` reports the
not-started message exactly when `current_streak = 0`, the at-target
message exactly when `current_streak = target_count`, and the in-progress
message carrying `current_streak` otherwise. -/
theorem streak_status_spec (h : Habit) (htc : 0 < h.target_count) :
    (Habit.get_streak_status h = startStreakMsg ↔ h.current_streak = 0)
    ∧ (Habit.get_streak_status h = maxStreakMsg ↔ h.current_streak = h.target_count)
    ∧ (h.current_streak ≠ 0 → h.current_streak ≠ h.target_count →
        Habit.get_streak_status h = streakOfDaysMsg h.current_streak) := by
  unfold Habit.get_streak_status
  split_ifs with h0 heq
  · refine ⟨by simp [h0], ?_, ?_⟩
    · constructor
      · intro hcontr
        exact absurd hcontr (by decide)
      · intro hct
        omega
    · intro hne _
      exact absurd h0 hne
  · refine ⟨?_, by simp [heq], ?_⟩
    · constructor
      · intro hcontr
        exact absurd hcontr.symm (by decide)
      · intro hcs
        exact absurd hcs h0
    · intro _ hne
      exact absurd heq hne
  · refine ⟨?_, ?_, fun _ _ => rfl⟩
    · constructor
      · intro hcontr
        exact absurd hcontr (streakOfDaysMsg_ne_start _)
      · intro hcs
        exact absurd hcs h0
    · constructor
      · intro hcontr
        exact absurd hcontr (streakOfDaysMsg_ne_max _)
      · intro hcs
        exact absurd hcs heq

/-- Witness for C8: a habit with `target_count = 3` and streak 3 reports
the at-target message. -/
theorem streak_status_spec_witness :
    0 < (⟨Frequency.daily, 3, 3, 9⟩ : Habit).target_count
    ∧ Habit.get_streak_status ⟨Frequency.daily, 3, 3, 9⟩ = maxStreakMsg :=
  ⟨by decide,
   (streak_status_spec ⟨Frequency.daily, 3, 3, 9⟩ (by decide)).2.1.mpr rfl⟩

/-- C9: `Habit.clean` rejects with the invalid-target-count error exactly
when the cadence-dependent bound is exceeded (daily: 7, weekly: 20,
monthly: 31), and accepts otherwise; in particular a daily habit with
`target_count = 8` is rejected and one with 7 is accepted. -/
theorem habit_target_count_validation (h : Habit) :
    ((h.frequency = Frequency.daily →
        (Habit.clean h = Except.error invalidDailyTargetMsg ↔ 7 < h.target_count)
        ∧ (h.target_count ≤ 7 → Habit.clean h = Except.ok ()))
      ∧ (h.frequency = Frequency.weekly →
        (Habit.clean h = Except.error invalidWeeklyTargetMsg ↔ 20 < h.target_count)
        ∧ (h.target_count ≤ 20 → Habit.clean h = Except.ok ()))
      ∧ (h.frequency = Frequency.monthly →
        (Habit.clean h = Except.error invalidMonthlyTargetMsg ↔ 31 < h.target_count)
        ∧ (h.target_count ≤ 31 → Habit.clean h = Except.ok ())))
    ∧ Habit.clean ⟨Frequency.daily, 8, 0, 0⟩ = Except.error invalidDailyTargetMsg
    ∧ Habit.clean ⟨Frequency.daily, 7, 0, 0⟩ = Except.ok () := by
  refine ⟨⟨?_, ?_, ?_⟩, rfl, rfl⟩ <;>
    · intro hf
      obtain ⟨freq, tc, cs, bs⟩ := h
      cases freq <;> simp_all [Habit.clean]

/-- Witness for C9: the daily bound at 8 and at 7, obtained through the
general theorem. -/
theorem habit_target_count_validation_witness :
    Habit.clean ⟨Frequency.daily, 8, 0, 0⟩ = Except.error invalidDailyTargetMsg
    ∧ Habit.clean ⟨Frequency.daily, 7, 0, 0⟩ = Except.ok () :=
  ⟨((habit_target_count_validation ⟨Frequency.daily, 8, 0, 0⟩).1.1 rfl).1.mpr (by decide),
   ((habit_target_count_validation ⟨Frequency.daily, 7, 0, 0⟩).1.1 rfl).2 (by decide)⟩

/-- C6: for an edit of an existing row, `CheckIn.clean` (the guard runs
inside it) rejects with the edit-window message exactly when more than 48
hours have elapsed from the persisted row's `created_at` to the supplied
`now` (given the check-in's date is not in the future, which is checked
first), and a brand-new check-in (`pk = none`) is never rejected by this
guard. -/
theorem edit_window_guard :
    (∀ (db : List CheckIn) (c original : CheckIn) (k : Nat) (now : Timestamp),
      c.pk = some k → findByPk db k = some original → c.date ≤ now.date →
        ((CheckIn.clean db c now = Except.error editWindowExpiredMsg
            ↔ hours48 < now.sec - original.created_at.sec)
          ∧ (now.sec - original.created_at.sec ≤ hours48 →
              CheckIn.clean db c now = Except.ok ())))
    ∧ ∀ (db : List CheckIn) (c : CheckIn) (now : Timestamp),
        c.pk = none → CheckIn.clean db c now ≠ Except.error editWindowExpiredMsg := by
  constructor
  · intro db c original k now hpk hfind hdate
    unfold CheckIn.clean
    rw [if_neg (not_lt.mpr hdate), hpk]
    simp only [hfind]
    constructor
    · by_cases hw : now.sec - original.created_at.sec > hours48
      · simp [hw]
      · simp only [hw, if_false]
        constructor
        · intro hcontr
          exact absurd hcontr (by simp)
        · intro hlt
          exact hlt.elim
    · intro hle
      rw [if_neg (not_lt.mpr hle)]
  · intro db c now hpk
    unfold CheckIn.clean
    rw [hpk]
    split
    · intro hcontr
      have : futureCheckInMsg = editWindowExpiredMsg := by
        injection hcontr
      exact absurd this (by decide)
    · simp

/-- Witness for C6: with `created_at = 0`, an edit at `now` = 49 hours is
rejected with the edit-window message and an edit at 47 hours passes
`clean`. -/
theorem edit_window_guard_witness :
    CheckIn.clean [⟨some 1, 0, false, ⟨0⟩⟩] ⟨some 1, 0, true, ⟨0⟩⟩ ⟨176400⟩
      = Except.error editWindowExpiredMsg
    ∧ CheckIn.clean [⟨some 1, 0, false, ⟨0⟩⟩] ⟨some 1, 0, true, ⟨0⟩⟩ ⟨169200⟩
      = Except.ok () :=
  ⟨(edit_window_guard.1 [⟨some 1, 0, false, ⟨0⟩⟩] ⟨some 1, 0, true, ⟨0⟩⟩
      ⟨some 1, 0, false, ⟨0⟩⟩ 1 ⟨176400⟩ rfl rfl (by decide)).1.mpr (by decide),
   (edit_window_guard.1 [⟨some 1, 0, false, ⟨0⟩⟩] ⟨some 1, 0, true, ⟨0⟩⟩
      ⟨some 1, 0, false, ⟨0⟩⟩ 1 ⟨169200⟩ rfl rfl (by decide)).2 (by decide)⟩

/-- Counterexample to C2: saving a brand-new check-in (`pk = none`) with
`done = true` does not trigger the streak recomputation — the habit comes
back with `current_streak` still 0, although recomputing over the
resulting history would give 1. -/
theorem creation_with_done_skips_recomputation :
    CheckIn.save ⟨Frequency.daily, 1, 0, 0⟩ [] ⟨none, 1, true, ⟨90000⟩⟩ ⟨90000⟩
      = Except.ok (⟨Frequency.daily, 1, 0, 0⟩, [⟨some 1, 1, true, ⟨90000⟩⟩])
    ∧ (CheckIn.update_streak ⟨Frequency.daily, 1, 0, 0⟩
        [⟨some 1, 1, true, ⟨90000⟩⟩]).current_streak = 1
    ∧ (⟨Frequency.daily, 1, 0, 0⟩ : Habit).current_streak = 0 :=
  ⟨rfl, rfl, rfl⟩

/-- C2 as amended: saving a brand-new check-in (`pk = none`) never runs
the streak recomputation — whatever its `done` value, a successful save
returns the habit unchanged. -/
theorem creation_leaves_habit_unchanged (habit h' : Habit)
    (db db' : List CheckIn) (c : CheckIn) (now : Timestamp)
    (hnew : c.pk = none)
    (hsave : CheckIn.save habit db c now = Except.ok (h', db')) :
    h' = habit := by
  unfold CheckIn.save at hsave
  cases hcl : CheckIn.clean db c now with
  | error e =>
    rw [hcl] at hsave
    exact absurd hsave (by simp)
  | ok u =>
    rw [hcl, hnew] at hsave
    simp only [Except.ok.injEq, Prod.mk.injEq] at hsave
    exact hsave.1.symm

/-- Witness for C2 (amended): a concrete creation with `done = true`
leaves the habit exactly as it was. -/
theorem creation_leaves_habit_unchanged_witness :
    (⟨none, 1, true, ⟨90000⟩⟩ : CheckIn).pk = none
    ∧ (⟨Frequency.daily, 1, 0, 0⟩ : Habit) = ⟨Frequency.daily, 1, 0, 0⟩ :=
  ⟨rfl,
   creation_leaves_habit_unchanged ⟨Frequency.daily, 1, 0, 0⟩
     ⟨Frequency.daily, 1, 0, 0⟩ [] [⟨some 1, 1, true, ⟨90000⟩⟩]
     ⟨none, 1, true, ⟨90000⟩⟩ ⟨90000⟩ rfl rfl⟩

/-- The habit of the Jan 1 / Jan 2 / Jan 3 / Jan 5 scenario, with both
streak fields 0. -/
def exampleHabitJan : Habit := ⟨Frequency.daily, 1, 0, 0⟩

/-- Persisted history of the scenario: Jan 1, Jan 2, Jan 3 done, Jan 5
not done (dates as day numbers, `created_at` of the Jan 5 row inside the
48-hour window of the `now` used below). -/
def exampleDbJan : List CheckIn :=
  [⟨some 1, 1, true, ⟨0⟩⟩, ⟨some 2, 2, true, ⟨0⟩⟩, ⟨some 3, 3, true, ⟨0⟩⟩,
   ⟨some 4, 5, false, ⟨360000⟩⟩]

/-- C3, evaluated on the code: editing the Jan 5 check-in to
`done = true` yields `current_streak = 3`, not 1 — `update_streak` runs
before the edit is persisted, so the recomputation still sees Jan 5 as
not done and counts the run Jan 3, Jan 2, Jan 1. -/
theorem jan5_transition_yields_three :
    CheckIn.save exampleHabitJan exampleDbJan ⟨some 4, 5, true, ⟨360000⟩⟩ ⟨432000⟩
      = Except.ok (⟨Frequency.daily, 1, 3, 3⟩,
          [⟨some 1, 1, true, ⟨0⟩⟩, ⟨some 2, 2, true, ⟨0⟩⟩,
           ⟨some 3, 3, true, ⟨0⟩⟩, ⟨some 4, 5, true, ⟨360000⟩⟩])
    ∧ (⟨Frequency.daily, 1, 3, 3⟩ : Habit).current_streak ≠ 1 :=
  ⟨rfl, by decide⟩

/-- C5: a save whose `done` transition is true→true, false→false or
true→false (including creation with `done = false`, whose original state
counts as not-done) does not trigger the recomputation: the habit's
streak fields come back unchanged. -/
theorem untriggered_save_leaves_habit_unchanged (habit h' : Habit)
    (db db' : List CheckIn) (c : CheckIn) (now : Timestamp)
    (htrans : (c.pk = none ∧ c.done = false)
      ∨ ∃ k original, c.pk = some k ∧ findByPk db k = some original
          ∧ ¬(original.done = false ∧ c.done = true))
    (hsave : CheckIn.save habit db c now = Except.ok (h', db')) :
    h' = habit := by
  unfold CheckIn.save at hsave
  cases hcl : CheckIn.clean db c now with
  | error e =>
    rw [hcl] at hsave
    exact absurd hsave (by simp)
  | ok u =>
    rcases htrans with ⟨hpk, _⟩ | ⟨k, original, hpk, hfind, hnot⟩
    · rw [hcl, hpk] at hsave
      simp only [Except.ok.injEq, Prod.mk.injEq] at hsave
      exact hsave.1.symm
    · rw [hcl, hpk] at hsave
      simp only [hfind] at hsave
      have hcond : (c.done && !original.done) = false := by
        rcases hc : c.done <;> rcases ho : original.done <;> simp_all
      simp only [hcond, Bool.false_eq_true, if_false, Except.ok.injEq,
        Prod.mk.injEq] at hsave
      exact hsave.1.symm

/-- Witness for C5: a concrete true→false edit (un-doing the only done
check-in) leaves the habit's streak fields at their prior values. -/
theorem untriggered_save_leaves_habit_unchanged_witness :
    CheckIn.save ⟨Frequency.daily, 1, 2, 2⟩ [⟨some 1, 1, true, ⟨0⟩⟩]
        ⟨some 1, 1, false, ⟨0⟩⟩ ⟨90000⟩
      = Except.ok (⟨Frequency.daily, 1, 2, 2⟩, [⟨some 1, 1, false, ⟨0⟩⟩])
    ∧ (⟨Frequency.daily, 1, 2, 2⟩ : Habit) = ⟨Frequency.daily, 1, 2, 2⟩ :=
  ⟨rfl,
   untriggered_save_leaves_habit_unchanged ⟨Frequency.daily, 1, 2, 2⟩
     ⟨Frequency.daily, 1, 2, 2⟩ [⟨some 1, 1, true, ⟨0⟩⟩] [⟨some 1, 1, false, ⟨0⟩⟩]
     ⟨some 1, 1, false, ⟨0⟩⟩ ⟨90000⟩
     (Or.inr ⟨1, ⟨some 1, 1, true, ⟨0⟩⟩, rfl, rfl, by simp⟩) rfl⟩

theorem filter_done_excludes_pk (db : List CheckIn) (k : Nat)
    (hall : ∀ r ∈ db, r.pk = some k → r.done = false) :
    db.filter (fun r => r.done)
      = (db.filter fun r => decide (r.pk ≠ some k)).filter fun r => r.done := by
  induction db with
  | nil => rfl
  | cons r rest ih =>
    have hrest : ∀ x ∈ rest, x.pk = some k → x.done = false :=
      fun x hx => hall x (List.mem_cons_of_mem _ hx)
    by_cases hpk : r.pk = some k
    · have hdone : r.done = false := hall r (List.mem_cons_self _ _) hpk
      simp [List.filter_cons, hdone, hpk, ih hrest]
    · rcases hd : r.done <;> simp [List.filter_cons, hpk, hd, ih hrest]

/-- C10: on a false→true edit, the recomputation runs before the new row
state is persisted — a successful save returns exactly
`update_streak habit db` for the pre-save history `db`, and (the edited
row being not-done there) the gathered done history excludes the
check-in being transitioned. -/
theorem recompute_reads_pre_save_history (habit h' : Habit)
    (db db' : List CheckIn) (c original : CheckIn) (k : Nat) (now : Timestamp)
    (hpk : c.pk = some k) (hfind : findByPk db k = some original)
    (horig : original.done = false) (hdone : c.done = true)
    (hall : ∀ r ∈ db, r.pk = some k → r.done = false)
    (hsave : CheckIn.save habit db c now = Except.ok (h', db')) :
    h' = CheckIn.update_streak habit db
    ∧ db.filter (fun r => r.done)
        = (db.filter fun r => decide (r.pk ≠ some k)).filter fun r => r.done := by
  refine ⟨?_, filter_done_excludes_pk db k hall⟩
  unfold CheckIn.save at hsave
  cases hcl : CheckIn.clean db c now with
  | error e =>
    rw [hcl] at hsave
    exact absurd hsave (by simp)
  | ok u =>
    rw [hcl, hpk] at hsave
    simp only [hfind] at hsave
    have hcond : (c.done && !original.done) = true := by
      simp [hdone, horig]
    simp only [hcond, if_true, Except.ok.injEq, Prod.mk.injEq] at hsave
    exact hsave.1.symm

/-- Witness for C10: in the Jan 1–3 / Jan 5 scenario, the habit returned
by the false→true save of the Jan 5 row is exactly the recomputation over
the pre-save history. -/
theorem recompute_reads_pre_save_history_witness :
    (⟨Frequency.daily, 1, 3, 3⟩ : Habit)
      = CheckIn.update_streak exampleHabitJan exampleDbJan
    ∧ exampleDbJan.filter (fun r => r.done)
        = (exampleDbJan.filter fun r => decide (r.pk ≠ some 4)).filter
            fun r => r.done :=
  recompute_reads_pre_save_history exampleHabitJan ⟨Frequency.daily, 1, 3, 3⟩
    exampleDbJan
    [⟨some 1, 1, true, ⟨0⟩⟩, ⟨some 2, 2, true, ⟨0⟩⟩, ⟨some 3, 3, true, ⟨0⟩⟩,
     ⟨some 4, 5, true, ⟨360000⟩⟩]
    ⟨some 4, 5, true, ⟨360000⟩⟩ ⟨some 4, 5, false, ⟨360000⟩⟩ 4 ⟨432000⟩
    rfl rfl rfl rfl (by decide) rfl

end HabitTracker
